import Mathlib

/-!
Verification of the tile-placement engine of bevy_tileset_map
(src/placement.rs and src/plugin.rs), shallowly embedded in Lean.

Modelling conventions:
* The Bevy ECS plumbing (queries, commands, event writers) is embedded as an
  explicit `PlacerState` threaded through each operation, together with a
  chronological trace of effects (`Effect`) emitted during the call.
* The compile-time auto-tile cargo feature becomes the runtime flag
  `Config.autoTile`.
* Entity component-commands in Bevy are deferred until the end of a system
  run, so component insertions and removals issued by a call are recorded in
  the trace but do not change the component maps seen by queries within the
  same call.
* Function bodies absent from the source (`place_unchecked`, `get_existing`,
  the registry getters) are modelled from the spec; each such definition is
  marked `Modelled from the spec:` in its doc comment.
-/

/-- Integer 2D tile coordinate, from `bevy_ecs_tilemap`. -/
structure TilePos where
  x : Nat
  y : Nat
deriving DecidableEq, Repr

/-- Entity handles, modelled as naturals. -/
abbrev Entity := Nat

/-- Tileset identifier (`TilesetId` of the external bevy_tileset crate),
modelled as a natural. -/
abbrev TilesetId := Nat

/-- Modelled from the spec: `TileId` of the external bevy_tileset crate
(source not in the repository) is composed of a tileset id, a group id and a
variant index. -/
structure TileId where
  tileset_id : TilesetId
  group_id : Nat
  variant : Nat
deriving DecidableEq, Repr

/-- Modelled from the spec: two `TileId` values are group-equal iff their
group ids match, regardless of variant (`eq_tile_group` of the external
bevy_tileset crate). -/
def TileId.eq_tile_group (a b : TileId) : Bool :=
  a.group_id == b.group_id

/-- Component `AutoTileId` of the external bevy_tileset crate, as constructed
in `apply_auto_tile`. -/
structure AutoTileId where
  group_id : Nat
  tileset_id : TilesetId
deriving DecidableEq, Repr

/-- Abstract parent/layer reference (`TileParent` of bevy_ecs_tilemap). -/
abbrev TileParent := Nat

/-- Cascade notification record (`RemoveAutoTileEvent` of the auto module). -/
structure RemoveAutoTileEvent where
  entity : Entity
  pos : TilePos
  parent : TileParent
  auto_id : AutoTileId
deriving DecidableEq, Repr

/-- Record that `get_existing` yields for an occupied cell: the occupying
entity plus its resolved `TileId`, when resolution succeeded. -/
structure Existing where
  entity : Entity
  id : Option TileId
deriving DecidableEq, Repr

/-- Per-tile metadata; the `is_auto` flag is what `apply_auto_tile` reads. -/
structure TileData where
  is_auto : Bool
deriving DecidableEq, Repr

/-- Index of a tile within its tileset. -/
abbrev TileIndex := Nat

/-- Error type `TilePlacementError` from src/placement.rs lines 12-44.  The
payload of `MapError` is never inspected by the engine and is dropped here. -/
inductive TilePlacementError where
  | TileAlreadyExists (new : TileId) (existing : Option TileId) (pos : TilePos)
  | InvalidTileset (id : TilesetId)
  | InvalidTile (id : TileId)
  | MapError
deriving DecidableEq, Repr

/-- Outcome type `PlacedTile` from src/placement.rs lines 51-65. -/
inductive PlacedTile where
  | Added (old_tile : Option (Entity × Option TileId)) (new_tile : Entity × TileId)
  | Removed (old_tile : Option (Entity × Option TileId))
deriving DecidableEq, Repr

/-- Result alias `TilePlacementResult` from src/placement.rs line 68. -/
abbrev TilePlacementResult := Except TilePlacementError PlacedTile

/-- Modelled from the spec: the read-only tile registry (the Tilesets resource
of the external bevy_tileset crate).  `tileset_of` says whether a tileset id
is known; `tile_index_of` and `tile_data_of` resolve a tile within a known
tileset and are `none` when the tile does not exist in it. -/
structure TileRegistry where
  tileset_of : TilesetId → Bool
  tile_index_of : TileId → Option TileIndex
  tile_data_of : TileId → Option TileData

/-- Modelled from the spec: `get_tileset_id` (body absent from the source)
resolves the tileset of a `TileId`, failing with `InvalidTileset` when the
tileset is unknown. -/
def TileRegistry.get_tileset_id (r : TileRegistry) (id : TileId) :
    Except TilePlacementError TilesetId :=
  if r.tileset_of id.tileset_id then .ok id.tileset_id
  else .error (.InvalidTileset id.tileset_id)

/-- Modelled from the spec: `get_tile_index` (body absent from the source)
resolves the index of a tile, failing with `InvalidTileset` when the tileset
is unknown and `InvalidTile` when the tileset is known but the tile is not. -/
def TileRegistry.get_tile_index (r : TileRegistry) (id : TileId) :
    Except TilePlacementError TileIndex :=
  match r.get_tileset_id id with
  | .error e => .error e
  | .ok _ =>
    match r.tile_index_of id with
    | some i => .ok i
    | none => .error (.InvalidTile id)

/-- Modelled from the spec: `get_tile_data` (body absent from the source),
same failure taxonomy as `get_tile_index`. -/
def TileRegistry.get_tile_data (r : TileRegistry) (id : TileId) :
    Except TilePlacementError TileData :=
  match r.get_tileset_id id with
  | .error e => .error e
  | .ok _ =>
    match r.tile_data_of id with
    | some d => .ok d
    | none => .error (.InvalidTile id)

/-- Static configuration of a placer call: the registry and whether the
auto-tile cargo feature is compiled in (modelled as a runtime flag, following
the design notes of the spec). -/
structure Config where
  registry : TileRegistry
  autoTile : Bool

/-- Mutable world state a placer call reads and writes:
* `grid` is the per-(map, layer) position-to-occupant index (TileStorage);
* `posC`, `parentC`, `autoC` are the `TilePos`, `TileParent` and `AutoTileId`
  components backing the auto query;
* `nextEntity` is the fresh-entity source used by spawning;
* `events` is the `RemoveAutoTileEvent` queue appended to by the event
  writer. -/
structure PlacerState where
  grid : Nat → Nat → TilePos → Option Existing
  posC : Entity → Option TilePos
  parentC : Entity → Option TileParent
  autoC : Entity → Option AutoTileId
  nextEntity : Entity
  events : List RemoveAutoTileEvent

/-- One observable side effect of a call, in chronological order of the
underlying source statements. -/
inductive Effect where
  | emitCascade (e : RemoveAutoTileEvent)
  | clearCell (map_id layer_id : Nat) (pos : TilePos)
  | insertCell (map_id layer_id : Nat) (pos : TilePos) (occ : Existing)
  | insertAutoId (entity : Entity) (auto : AutoTileId)
  | removeAutoId (entity : Entity)
deriving DecidableEq, Repr

/-- Lookup `get_tile_entity` of bevy_ecs_tilemap: the entity at a position,
an error when the cell has no occupant (`remove` wraps that error as
`MapError`). -/
def get_tile_entity (s : PlacerState) (map_id layer_id : Nat) (pos : TilePos) :
    Except TilePlacementError Entity :=
  match s.grid map_id layer_id pos with
  | some ex => .ok ex.entity
  | none => .error .MapError

/-- Despawn of a cell (`remove` of bevy_ecs_tilemap): clears the cell in the
grid index (a no-op on an already-empty cell). -/
def clearCell (s : PlacerState) (map_id layer_id : Nat) (pos : TilePos) : PlacerState :=
  { s with grid := fun m l p =>
      if (m, l, p) = (map_id, layer_id, pos) then none else s.grid m l p }

/-- Installs an occupant at a cell in the grid index, superseding any
previous occupant. -/
def insertCell (s : PlacerState) (map_id layer_id : Nat) (pos : TilePos)
    (occ : Existing) : PlacerState :=
  { s with grid := fun m l p =>
      if (m, l, p) = (map_id, layer_id, pos) then some occ else s.grid m l p }

/-- Function `try_remove_auto_tile` (src/placement.rs lines 321-342): looks
the entity up in the auto query (which requires all of the `TilePos`,
`TileParent` and `AutoTileId` components); on success sends one
`RemoveAutoTileEvent` and returns `true`, otherwise sends nothing and
returns `false`. -/
def TilePlacer.try_remove_auto_tile (s : PlacerState) (entity : Entity) :
    PlacerState × List Effect × Bool :=
  match s.posC entity, s.parentC entity, s.autoC entity with
  | some pos, some parent, some auto =>
    let ev : RemoveAutoTileEvent :=
      { entity := entity, pos := pos, parent := parent, auto_id := auto }
    ({ s with events := s.events ++ [ev] }, [Effect.emitCascade ev], true)
  | _, _, _ => (s, [], false)

/-- Function `remove` (src/placement.rs lines 250-274).  With the auto-tile
capability it first looks up the occupying entity (failing with `MapError`
when the lookup fails), then attempts the auto-tile removal event, and only
then clears the cell.  Without the capability it clears the cell
unconditionally. -/
def TilePlacer.remove (cfg : Config) (s : PlacerState) (pos : TilePos)
    (map_id layer_id : Nat) :
    Except TilePlacementError Unit × PlacerState × List Effect :=
  if cfg.autoTile then
    match get_tile_entity s map_id layer_id pos with
    | .error e => (.error e, s, [])
    | .ok entity =>
      let r1 := TilePlacer.try_remove_auto_tile s entity
      (.ok (), clearCell r1.1 map_id layer_id pos,
        r1.2.1 ++ [Effect.clearCell map_id layer_id pos])
  else
    (.ok (), clearCell s map_id layer_id pos, [Effect.clearCell map_id layer_id pos])

/-- Function `apply_auto_tile` (src/placement.rs lines 300-319): reads the
`is_auto` metadata of the tile (defaulting to `false` on resolution failure);
when auto, issues a deferred command inserting an `AutoTileId` component;
when not, issues a deferred command removing the component and runs the same
removal-cascade path (`try_remove_auto_tile`) for cleanup. -/
def TilePlacer.apply_auto_tile (cfg : Config) (s : PlacerState) (id : TileId)
    (tileset_id : TilesetId) (entity : Entity) : PlacerState × List Effect :=
  let is_auto :=
    match cfg.registry.get_tile_data id with
    | .ok d => d.is_auto
    | .error _ => false
  if is_auto then
    (s, [Effect.insertAutoId entity { group_id := id.group_id, tileset_id := tileset_id }])
  else
    let r := TilePlacer.try_remove_auto_tile s entity
    (r.1, Effect.removeAutoId entity :: r.2.1)

/-- Modelled from the spec: the body of `place_unchecked` (src/placement.rs
lines 291-298) is absent from the source.  Per the spec it first resolves the
tileset and index of the new tile via the registry, failing fast with
`InvalidTileset` or `InvalidTile` and making no mutation; then it captures
the previous occupant, spawns a fresh entity, installs it in the grid index,
applies the auto-tile identity when the capability is enabled, and returns
`Added` carrying the previous and new occupants. -/
def TilePlacer.place_unchecked (cfg : Config) (s : PlacerState) (id : TileId)
    (pos : TilePos) (map_id layer_id : Nat) :
    TilePlacementResult × PlacerState × List Effect :=
  match cfg.registry.get_tileset_id id with
  | .error e => (.error e, s, [])
  | .ok tileset_id =>
    match cfg.registry.get_tile_index id with
    | .error e => (.error e, s, [])
    | .ok _ =>
      let old := s.grid map_id layer_id pos
      let entity := s.nextEntity
      let occ : Existing := { entity := entity, id := some id }
      let s1 := insertCell { s with nextEntity := s.nextEntity + 1 } map_id layer_id pos occ
      let r2 :=
        if cfg.autoTile then TilePlacer.apply_auto_tile cfg s1 id tileset_id entity
        else (s1, [])
      (.ok (.Added (old.map fun ex => (ex.entity, ex.id)) (entity, id)),
        r2.1, Effect.insertCell map_id layer_id pos occ :: r2.2)

/-- Function `place` (src/placement.rs lines 140-148): delegates
unconditionally to `place_unchecked`. -/
def TilePlacer.place (cfg : Config) (s : PlacerState) (id : TileId)
    (pos : TilePos) (map_id layer_id : Nat) :
    TilePlacementResult × PlacerState × List Effect :=
  TilePlacer.place_unchecked cfg s id pos map_id layer_id

/-- Function `try_place` (src/placement.rs lines 150-170): rejects with
`TileAlreadyExists` whenever the cell has any occupant, otherwise places. -/
def TilePlacer.try_place (cfg : Config) (s : PlacerState) (id : TileId)
    (pos : TilePos) (map_id layer_id : Nat) :
    TilePlacementResult × PlacerState × List Effect :=
  match s.grid map_id layer_id pos with
  | some ex => (.error (.TileAlreadyExists id ex.id pos), s, [])
  | none => TilePlacer.place_unchecked cfg s id pos map_id layer_id

/-- Function `replace` (src/placement.rs lines 172-196): rejects with
`TileAlreadyExists` only when the existing occupant has a resolved `TileId`
group-equal to the new one; in every other case (empty cell, unresolved
occupant id, differing group) it places over the cell. -/
def TilePlacer.replace (cfg : Config) (s : PlacerState) (id : TileId)
    (pos : TilePos) (map_id layer_id : Nat) :
    TilePlacementResult × PlacerState × List Effect :=
  match s.grid map_id layer_id pos with
  | some ex =>
    match ex.id with
    | some existing_id =>
      if existing_id.eq_tile_group id then
        (.error (.TileAlreadyExists id (some existing_id) pos), s, [])
      else TilePlacer.place_unchecked cfg s id pos map_id layer_id
    | none => TilePlacer.place_unchecked cfg s id pos map_id layer_id
  | none => TilePlacer.place_unchecked cfg s id pos map_id layer_id

/-- Function `toggle_matching` (src/placement.rs lines 198-228): on an
occupied cell, removes the occupant when its resolved id is group-equal to
the new id, returning `Removed`; otherwise (differing group or unresolved
occupant id) rejects with `TileAlreadyExists`.  On an empty cell it places. -/
def TilePlacer.toggle_matching (cfg : Config) (s : PlacerState) (id : TileId)
    (pos : TilePos) (map_id layer_id : Nat) :
    TilePlacementResult × PlacerState × List Effect :=
  match s.grid map_id layer_id pos with
  | some ex =>
    match ex.id with
    | some existing_id =>
      if existing_id.eq_tile_group id then
        match TilePlacer.remove cfg s pos map_id layer_id with
        | (.error e, s1, tr) => (.error e, s1, tr)
        | (.ok _, s1, tr) =>
          (.ok (.Removed (some (ex.entity, some existing_id))), s1, tr)
      else (.error (.TileAlreadyExists id (some existing_id) pos), s, [])
    | none => (.error (.TileAlreadyExists id none pos), s, [])
  | none => TilePlacer.place_unchecked cfg s id pos map_id layer_id

/-- Function `toggle` (src/placement.rs lines 230-248): on an occupied cell,
removes the occupant irrespective of group and returns `Removed`; on an empty
cell it places. -/
def TilePlacer.toggle (cfg : Config) (s : PlacerState) (id : TileId)
    (pos : TilePos) (map_id layer_id : Nat) :
    TilePlacementResult × PlacerState × List Effect :=
  match s.grid map_id layer_id pos with
  | some ex =>
    match TilePlacer.remove cfg s pos map_id layer_id with
    | (.error e, s1, tr) => (.error e, s1, tr)
    | (.ok _, s1, tr) => (.ok (.Removed (some (ex.entity, ex.id))), s1, tr)
  | none => TilePlacer.place_unchecked cfg s id pos map_id layer_id

/-- One system registration performed by the plugin: the stage it is added
to, its label, the system function, and the labels it is explicitly ordered
before. -/
structure SystemReg where
  stage : String
  label : String
  system : String
  before : List String
deriving DecidableEq, Repr

/-- Plugin setup (src/plugin.rs lines 19-38), as the list of system
registrations it performs; `autoTile` models the auto-tile cargo feature
gate. -/
def TilesetMapPlugin.build (autoTile : Bool) : List SystemReg :=
  if autoTile then
    [ { stage := "TilesetMapStage", label := "RemoveAutoTiles",
        system := "on_remove_auto_tile", before := [] },
      { stage := "TilemapStage", label := "UpdateAutoTiles",
        system := "on_change_auto_tile", before := ["UpdateChunkVisibility"] } ]
  else []

/-- Whether an effect is a cascade emission. -/
def Effect.isEmit : Effect → Bool
  | .emitCascade _ => true
  | _ => false

/-- Whether an effect is a grid-cell clearing. -/
def Effect.isClear : Effect → Bool
  | .clearCell _ _ _ => true
  | _ => false

/-- Scan helper: emissions are permitted only once a clearing has been seen. -/
def emitsOnlyAfterClearAux : Bool → List Effect → Bool
  | _, [] => true
  | seen, e :: rest =>
    if e.isEmit then seen && emitsOnlyAfterClearAux seen rest
    else emitsOnlyAfterClearAux (seen || e.isClear) rest

/-- Every cascade emission in the trace occurs strictly after some
grid-cell clearing. -/
def emitsOnlyAfterClear (tr : List Effect) : Bool :=
  emitsOnlyAfterClearAux false tr

/-- Scan helper: no emission is permitted once a clearing has been seen. -/
def noEmitAfterClearAux : Bool → List Effect → Bool
  | _, [] => true
  | seen, e :: rest =>
    if e.isEmit then !seen && noEmitAfterClearAux seen rest
    else noEmitAfterClearAux (seen || e.isClear) rest

/-- Every cascade emission in the trace occurs strictly before every
grid-cell clearing. -/
def noEmitAfterClear (tr : List Effect) : Bool :=
  noEmitAfterClearAux false tr

/-- Whether an error is a tile-resolution error (unknown tileset or unknown
tile), as opposed to a conflict or storage error. -/
def resolutionError : TilePlacementError → Bool
  | .InvalidTileset _ => true
  | .InvalidTile _ => true
  | _ => false

/-- Registry fixture resolving every tile, with auto metadata. -/
def regAll : TileRegistry :=
  { tileset_of := fun _ => true, tile_index_of := fun _ => some 0,
    tile_data_of := fun _ => some { is_auto := true } }

/-- Registry fixture resolving nothing. -/
def regNone : TileRegistry :=
  { tileset_of := fun _ => false, tile_index_of := fun _ => none,
    tile_data_of := fun _ => none }

/-- Configuration fixture: full registry, auto-tile capability enabled. -/
def cfgAuto : Config := { registry := regAll, autoTile := true }

/-- Configuration fixture: full registry, auto-tile capability disabled. -/
def cfgPlain : Config := { registry := regAll, autoTile := false }

/-- Configuration fixture: empty registry, auto-tile capability disabled. -/
def cfgNone : Config := { registry := regNone, autoTile := false }

/-- Tile fixture: tileset 0, group 0, variant 0. -/
def tidA : TileId := { tileset_id := 0, group_id := 0, variant := 0 }

/-- Tile fixture: same group as `tidA`, different variant. -/
def tidA2 : TileId := { tileset_id := 0, group_id := 0, variant := 1 }

/-- Tile fixture: different group from `tidA`. -/
def tidB : TileId := { tileset_id := 0, group_id := 1, variant := 0 }

/-- Position fixture (0, 0). -/
def p00 : TilePos := { x := 0, y := 0 }

/-- Occupant fixture: entity 7 holding `tidA`. -/
def exA : Existing := { entity := 7, id := some tidA }

/-- Occupant fixture: entity 7 with an unresolved tile id. -/
def exN : Existing := { entity := 7, id := none }

/-- State fixture: everything empty. -/
def sEmpty : PlacerState :=
  { grid := fun _ _ _ => none, posC := fun _ => none, parentC := fun _ => none,
    autoC := fun _ => none, nextEntity := 0, events := [] }

/-- State fixture: cell (0,0) of map 0 layer 0 occupied by entity 7 carrying
`tidA`, with the full auto-tile component record attached to entity 7. -/
def sOccAuto : PlacerState :=
  { grid := fun m l p => if (m, l, p) = (0, 0, p00) then some exA else none,
    posC := fun e => if e = 7 then some p00 else none,
    parentC := fun e => if e = 7 then some 3 else none,
    autoC := fun e => if e = 7 then some { group_id := 0, tileset_id := 0 } else none,
    nextEntity := 10, events := [] }

/-- State fixture: cell (0,0) occupied by entity 7 whose tile id is
unresolved, no auto-tile components anywhere. -/
def sOccNone : PlacerState :=
  { grid := fun m l p => if (m, l, p) = (0, 0, p00) then some exN else none,
    posC := fun _ => none, parentC := fun _ => none, autoC := fun _ => none,
    nextEntity := 10, events := [] }

/-- Event fixture: the cascade notification for entity 7 at `p00`. -/
def ev0 : RemoveAutoTileEvent :=
  { entity := 7, pos := p00, parent := 3,
    auto_id := { group_id := 0, tileset_id := 0 } }

theorem clearCell_self (s : PlacerState) (m l : Nat) (p : TilePos) :
    (clearCell s m l p).grid m l p = none := by
  simp [clearCell]

theorem clearCell_events (s : PlacerState) (m l : Nat) (p : TilePos) :
    (clearCell s m l p).events = s.events := rfl

theorem clearCell_empty (s : PlacerState) (m l : Nat) (p : TilePos)
    (h : s.grid m l p = none) : clearCell s m l p = s := by
  cases s with
  | mk grid posC parentC autoC nextEntity events =>
    simp only [clearCell]
    congr 1
    funext m2 l2 p2
    by_cases hc : (m2, l2, p2) = (m, l, p)
    · rw [if_pos hc]
      simp only [Prod.mk.injEq] at hc
      obtain ⟨rfl, rfl, rfl⟩ := hc
      exact h.symm
    · rw [if_neg hc]

theorem try_remove_found (s : PlacerState) (e : Entity) (p : TilePos)
    (par : TileParent) (a : AutoTileId) (hp : s.posC e = some p)
    (hq : s.parentC e = some par) (ha : s.autoC e = some a) :
    TilePlacer.try_remove_auto_tile s e =
      ({ s with events := s.events ++
          [{ entity := e, pos := p, parent := par, auto_id := a }] },
        [Effect.emitCascade { entity := e, pos := p, parent := par, auto_id := a }],
        true) := by
  unfold TilePlacer.try_remove_auto_tile
  rw [hp, hq, ha]

theorem try_remove_missing (s : PlacerState) (e : Entity)
    (h : s.posC e = none ∨ s.parentC e = none ∨ s.autoC e = none) :
    TilePlacer.try_remove_auto_tile s e = (s, [], false) := by
  unfold TilePlacer.try_remove_auto_tile
  rcases hp : s.posC e with _ | p
  · rfl
  · rcases hq : s.parentC e with _ | q
    · rfl
    · rcases ha : s.autoC e with _ | a
      · rfl
      · rcases h with h | h | h
        · rw [hp] at h; exact absurd h (by simp)
        · rw [hq] at h; exact absurd h (by simp)
        · rw [ha] at h; exact absurd h (by simp)

theorem try_remove_grid (s : PlacerState) (e : Entity) :
    (TilePlacer.try_remove_auto_tile s e).1.grid = s.grid := by
  unfold TilePlacer.try_remove_auto_tile
  rcases s.posC e with _ | p <;> rcases s.parentC e with _ | q <;>
    rcases s.autoC e with _ | a <;> rfl

theorem apply_auto_tile_grid (cfg : Config) (s : PlacerState) (id : TileId)
    (ts : TilesetId) (e : Entity) :
    (TilePlacer.apply_auto_tile cfg s id ts e).1.grid = s.grid := by
  unfold TilePlacer.apply_auto_tile
  rcases cfg.registry.get_tile_data id with _ | d
  · simp [try_remove_grid]
  · by_cases hd : d.is_auto <;> simp [hd, try_remove_grid]

theorem get_tileset_id_ok (r : TileRegistry) (id : TileId)
    (h : r.tileset_of id.tileset_id = true) :
    r.get_tileset_id id = .ok id.tileset_id := by
  simp [TileRegistry.get_tileset_id, h]

theorem get_tileset_id_err (r : TileRegistry) (id : TileId)
    (h : r.tileset_of id.tileset_id = false) :
    r.get_tileset_id id = .error (.InvalidTileset id.tileset_id) := by
  simp [TileRegistry.get_tileset_id, h]

theorem get_tile_index_ok (r : TileRegistry) (id : TileId) (ix : TileIndex)
    (h1 : r.tileset_of id.tileset_id = true)
    (h2 : r.tile_index_of id = some ix) :
    r.get_tile_index id = .ok ix := by
  simp [TileRegistry.get_tile_index, get_tileset_id_ok r id h1, h2]

theorem get_tile_index_err_tile (r : TileRegistry) (id : TileId)
    (h1 : r.tileset_of id.tileset_id = true)
    (h2 : r.tile_index_of id = none) :
    r.get_tile_index id = .error (.InvalidTile id) := by
  simp [TileRegistry.get_tile_index, get_tileset_id_ok r id h1, h2]

theorem get_tile_index_err_tileset (r : TileRegistry) (id : TileId)
    (h1 : r.tileset_of id.tileset_id = false) :
    r.get_tile_index id = .error (.InvalidTileset id.tileset_id) := by
  simp [TileRegistry.get_tile_index, get_tileset_id_err r id h1]

theorem get_tile_entity_occ (s : PlacerState) (m l : Nat) (pos : TilePos)
    (ex : Existing) (hocc : s.grid m l pos = some ex) :
    get_tile_entity s m l pos = .ok ex.entity := by
  simp [get_tile_entity, hocc]

theorem get_tile_entity_empty (s : PlacerState) (m l : Nat) (pos : TilePos)
    (h : s.grid m l pos = none) :
    get_tile_entity s m l pos = .error .MapError := by
  simp [get_tile_entity, h]

theorem place_unchecked_err (cfg : Config) (s : PlacerState) (id : TileId)
    (pos : TilePos) (m l : Nat) (e : TilePlacementError)
    (h : (TilePlacer.place_unchecked cfg s id pos m l).1 = .error e) :
    TilePlacer.place_unchecked cfg s id pos m l = (.error e, s, []) ∧
    resolutionError e = true := by
  cases hts : cfg.registry.tileset_of id.tileset_id with
  | false =>
    simp only [TilePlacer.place_unchecked, get_tileset_id_err _ _ hts] at h ⊢
    simp only [Except.error.injEq] at h
    subst h
    exact ⟨rfl, rfl⟩
  | true =>
    rcases hix : cfg.registry.tile_index_of id with _ | ix
    · simp only [TilePlacer.place_unchecked, get_tileset_id_ok _ _ hts,
        get_tile_index_err_tile _ _ hts hix] at h ⊢
      simp only [Except.error.injEq] at h
      subst h
      exact ⟨rfl, rfl⟩
    · simp only [TilePlacer.place_unchecked, get_tileset_id_ok _ _ hts,
        get_tile_index_ok _ _ _ hts hix] at h
      exact absurd h (by simp)

theorem place_unchecked_ok (cfg : Config) (s : PlacerState) (id : TileId)
    (pos : TilePos) (m l : Nat) (ix : TileIndex)
    (h1 : cfg.registry.tileset_of id.tileset_id = true)
    (h2 : cfg.registry.tile_index_of id = some ix) :
    (TilePlacer.place_unchecked cfg s id pos m l).1 =
      .ok (.Added ((s.grid m l pos).map fun ex => (ex.entity, ex.id))
        (s.nextEntity, id)) ∧
    (TilePlacer.place_unchecked cfg s id pos m l).2.1.grid m l pos =
      some { entity := s.nextEntity, id := some id } := by
  simp only [TilePlacer.place_unchecked, get_tileset_id_ok _ _ h1,
    get_tile_index_ok _ _ _ h1 h2]
  refine ⟨by trivial, ?_⟩
  cases hat : cfg.autoTile with
  | false => simp [hat, insertCell]
  | true => simp [hat, apply_auto_tile_grid, insertCell]

theorem remove_occupied (cfg : Config) (s : PlacerState) (pos : TilePos)
    (m l : Nat) (ex : Existing) (hocc : s.grid m l pos = some ex) :
    TilePlacer.remove cfg s pos m l =
      (if cfg.autoTile then
        (.ok (), clearCell (TilePlacer.try_remove_auto_tile s ex.entity).1 m l pos,
          (TilePlacer.try_remove_auto_tile s ex.entity).2.1 ++
            [Effect.clearCell m l pos])
      else (.ok (), clearCell s m l pos, [Effect.clearCell m l pos])) := by
  cases hat : cfg.autoTile with
  | false => simp [TilePlacer.remove, hat]
  | true => simp [TilePlacer.remove, hat, get_tile_entity_occ s m l pos ex hocc]

theorem remove_occupied_ok (cfg : Config) (s : PlacerState) (pos : TilePos)
    (m l : Nat) (ex : Existing) (hocc : s.grid m l pos = some ex) :
    (TilePlacer.remove cfg s pos m l).1 = .ok () ∧
    (TilePlacer.remove cfg s pos m l).2.1.grid m l pos = none := by
  rw [remove_occupied cfg s pos m l ex hocc]
  cases hat : cfg.autoTile with
  | false => simp [clearCell_self]
  | true => simp [clearCell_self]

/-- C6: `try_place` on a cell with any existing occupant returns
`TileAlreadyExists` (carrying the new id, the existing id and the position)
regardless of whether the tiles share a group, with no state change; it
installs the tile only when the cell is empty, returning `Added` with no
previous occupant and writing the new occupant into the grid index. -/
theorem try_place_total_exclusivity (cfg : Config) (s : PlacerState)
    (id : TileId) (pos : TilePos) (m l : Nat) :
    (∀ ex, s.grid m l pos = some ex →
      TilePlacer.try_place cfg s id pos m l =
        (.error (.TileAlreadyExists id ex.id pos), s, [])) ∧
    (∀ ix, s.grid m l pos = none →
      cfg.registry.tileset_of id.tileset_id = true →
      cfg.registry.tile_index_of id = some ix →
      (TilePlacer.try_place cfg s id pos m l).1 =
        .ok (.Added none (s.nextEntity, id)) ∧
      (TilePlacer.try_place cfg s id pos m l).2.1.grid m l pos =
        some { entity := s.nextEntity, id := some id }) := by
  constructor
  · intro ex hocc
    simp [TilePlacer.try_place, hocc]
  · intro ix hempty h1 h2
    have h := place_unchecked_ok cfg s id pos m l ix h1 h2
    rw [hempty] at h
    simp only [Option.map_none'] at h
    simp only [TilePlacer.try_place, hempty]
    exact h

/-- Witness for `try_place_total_exclusivity` at a concrete occupied cell
holding a tile of a different group. -/
theorem try_place_total_exclusivity_witness :
    sOccAuto.grid 0 0 p00 = some exA ∧
    TilePlacer.try_place cfgAuto sOccAuto tidB p00 0 0 =
      (.error (.TileAlreadyExists tidB (some tidA) p00), sOccAuto, []) := by
  refine ⟨by decide, ?_⟩
  exact (try_place_total_exclusivity cfgAuto sOccAuto tidB p00 0 0).1 exA (by decide)

/-- C10: with the auto-tile capability enabled, the plugin registers the
auto-tile update system `on_change_auto_tile` in the tilemap stage with an
explicit ordering constraint placing it before the chunk-visibility
recomputation label of the host schedule. -/
theorem plugin_auto_tile_before_visibility :
    ∃ r ∈ TilesetMapPlugin.build true,
      r.system = "on_change_auto_tile" ∧ r.label = "UpdateAutoTiles" ∧
      r.stage = "TilemapStage" ∧ r.before = ["UpdateChunkVisibility"] := by
  decide

/-- C4: on an occupied cell, `replace` returns `TileAlreadyExists` exactly
when the existing occupant has a resolved tile id group-equal to the new one;
otherwise (groups differ) it overwrites the occupant, returning `Added` with
the previous occupant recorded in `old_tile` and installing the new occupant
in the grid index (given that the new tile resolves in the registry). -/
theorem replace_group_scoped_exclusivity (cfg : Config) (s : PlacerState)
    (id : TileId) (pos : TilePos) (m l : Nat) (ex : Existing)
    (hocc : s.grid m l pos = some ex) :
    ((TilePlacer.replace cfg s id pos m l).1 =
        .error (.TileAlreadyExists id ex.id pos) ↔
      ∃ eid, ex.id = some eid ∧ eid.eq_tile_group id = true) ∧
    (∀ eid ix, ex.id = some eid → eid.eq_tile_group id = false →
      cfg.registry.tileset_of id.tileset_id = true →
      cfg.registry.tile_index_of id = some ix →
      (TilePlacer.replace cfg s id pos m l).1 =
        .ok (.Added (some (ex.entity, some eid)) (s.nextEntity, id)) ∧
      (TilePlacer.replace cfg s id pos m l).2.1.grid m l pos =
        some { entity := s.nextEntity, id := some id }) := by
  rcases hid : ex.id with _ | eid
  · have hrepl : TilePlacer.replace cfg s id pos m l =
        TilePlacer.place_unchecked cfg s id pos m l := by
      simp [TilePlacer.replace, hocc, hid]
    constructor
    · rw [hrepl]
      constructor
      · intro h
        obtain ⟨_, hkind⟩ := place_unchecked_err cfg s id pos m l _ h
        simp [resolutionError] at hkind
      · rintro ⟨eid, heq, _⟩
        exact absurd heq (by simp)
    · intro eid ix heq
      exact absurd heq (by simp)
  · by_cases hgr : eid.eq_tile_group id = true
    · have hrepl : TilePlacer.replace cfg s id pos m l =
          (.error (.TileAlreadyExists id (some eid) pos), s, []) := by
        simp [TilePlacer.replace, hocc, hid, hgr]
      constructor
      · rw [hrepl]
        exact ⟨fun _ => ⟨eid, rfl, hgr⟩, fun _ => rfl⟩
      · intro eid2 ix heq hgr2
        injection heq with heq2
        subst heq2
        rw [hgr] at hgr2
        exact absurd hgr2 (by simp)
    · have hgr' : eid.eq_tile_group id = false := by
        simpa using hgr
      have hrepl : TilePlacer.replace cfg s id pos m l =
          TilePlacer.place_unchecked cfg s id pos m l := by
        simp [TilePlacer.replace, hocc, hid, hgr']
      constructor
      · rw [hrepl]
        constructor
        · intro h
          obtain ⟨_, hkind⟩ := place_unchecked_err cfg s id pos m l _ h
          simp [resolutionError] at hkind
        · rintro ⟨eid2, heq, hg2⟩
          injection heq with heq2
          subst heq2
          exact absurd hg2 hgr
      · intro eid2 ix heq hgr2 h1 h2
        injection heq with heq2
        subst heq2
        have h := place_unchecked_ok cfg s id pos m l ix h1 h2
        rw [hocc] at h
        rw [hrepl]
        simp only [Option.map_some'] at h
        rw [hid] at h
        exact h

/-- Witness for `replace_group_scoped_exclusivity`: a concrete occupied cell
whose tile is group-equal to the new tile, where `replace` rejects. -/
theorem replace_group_scoped_exclusivity_witness :
    sOccAuto.grid 0 0 p00 = some exA ∧
    ((TilePlacer.replace cfgAuto sOccAuto tidA2 p00 0 0).1 =
        .error (.TileAlreadyExists tidA2 (some tidA) p00)) := by
  refine ⟨by decide, ?_⟩
  exact ((replace_group_scoped_exclusivity cfgAuto sOccAuto tidA2 p00 0 0 exA
    (by decide)).1).2 ⟨tidA, rfl, by decide⟩

/-- C5: on an occupied cell, `toggle_matching` removes the occupant and
returns `Removed` carrying it exactly when the occupant has a resolved tile
id group-equal to the new one (and the cell is cleared in the grid index);
otherwise it returns `TileAlreadyExists` with no state mutation and no
effects. -/
theorem toggle_matching_selectivity (cfg : Config) (s : PlacerState)
    (id : TileId) (pos : TilePos) (m l : Nat) (ex : Existing)
    (hocc : s.grid m l pos = some ex) :
    (∀ eid, ex.id = some eid → eid.eq_tile_group id = true →
      (TilePlacer.toggle_matching cfg s id pos m l).1 =
        .ok (.Removed (some (ex.entity, some eid))) ∧
      (TilePlacer.toggle_matching cfg s id pos m l).2.1.grid m l pos = none) ∧
    ((∀ eid, ex.id = some eid → eid.eq_tile_group id = false) →
      TilePlacer.toggle_matching cfg s id pos m l =
        (.error (.TileAlreadyExists id ex.id pos), s, [])) := by
  obtain ⟨hr1, hr2⟩ := remove_occupied_ok cfg s pos m l ex hocc
  rcases hr : TilePlacer.remove cfg s pos m l with ⟨r, s1, tr⟩
  rw [hr] at hr1 hr2
  simp only at hr1 hr2
  subst hr1
  rcases hid : ex.id with _ | eid
  · constructor
    · intro eid heq
      exact absurd heq (by simp)
    · intro _
      simp [TilePlacer.toggle_matching, hocc, hid]
  · by_cases hgr : eid.eq_tile_group id = true
    · constructor
      · intro eid2 heq hgr2
        injection heq with heq2
        subst heq2
        have htm : TilePlacer.toggle_matching cfg s id pos m l =
            (.ok (.Removed (some (ex.entity, some eid))), s1, tr) := by
          simp [TilePlacer.toggle_matching, hocc, hid, hgr, hr]
        rw [htm]
        exact ⟨rfl, hr2⟩
      · intro hall
        have := hall eid rfl
        rw [hgr] at this
        exact absurd this (by simp)
    · have hgr' : eid.eq_tile_group id = false := by simpa using hgr
      constructor
      · intro eid2 heq hgr2
        injection heq with heq2
        subst heq2
        rw [hgr'] at hgr2
        exact absurd hgr2 (by simp)
      · intro _
        simp [TilePlacer.toggle_matching, hocc, hid, hgr']

/-- Witness for `toggle_matching_selectivity`: concrete removal of a
group-equal occupant. -/
theorem toggle_matching_selectivity_witness :
    sOccAuto.grid 0 0 p00 = some exA ∧
    (TilePlacer.toggle_matching cfgAuto sOccAuto tidA2 p00 0 0).1 =
      .ok (.Removed (some (7, some tidA))) ∧
    (TilePlacer.toggle_matching cfgAuto sOccAuto tidA2 p00 0 0).2.1.grid 0 0 p00 =
      none := by
  refine ⟨by decide, ?_⟩
  exact (toggle_matching_selectivity cfgAuto sOccAuto tidA2 p00 0 0 exA
    (by decide)).1 tidA rfl (by decide)

/-- C9: when the cell is occupied but the tile id of the occupant could not
be resolved, `replace` skips the group check and overwrites (delegating to
`place_unchecked`; with a resolvable new tile the result is `Added` carrying
the unresolved previous occupant), while `toggle_matching` rejects with
`TileAlreadyExists` whose `existing` field is `none`, mutating nothing and
never taking its removal branch; neither operation fails on the unresolved
occupant itself. -/
theorem unresolved_occupant_handling (cfg : Config) (s : PlacerState)
    (id : TileId) (pos : TilePos) (m l : Nat) (e : Entity)
    (hocc : s.grid m l pos = some { entity := e, id := none }) :
    TilePlacer.replace cfg s id pos m l =
      TilePlacer.place_unchecked cfg s id pos m l ∧
    (∀ ix, cfg.registry.tileset_of id.tileset_id = true →
      cfg.registry.tile_index_of id = some ix →
      (TilePlacer.replace cfg s id pos m l).1 =
        .ok (.Added (some (e, none)) (s.nextEntity, id))) ∧
    TilePlacer.toggle_matching cfg s id pos m l =
      (.error (.TileAlreadyExists id none pos), s, []) := by
  have hrepl : TilePlacer.replace cfg s id pos m l =
      TilePlacer.place_unchecked cfg s id pos m l := by
    simp [TilePlacer.replace, hocc]
  refine ⟨hrepl, ?_, ?_⟩
  · intro ix hr1 hr2
    have h := (place_unchecked_ok cfg s id pos m l ix hr1 hr2).1
    rw [hocc] at h
    rw [hrepl]
    simpa using h
  · simp [TilePlacer.toggle_matching, hocc]

/-- Witness for `unresolved_occupant_handling` at a concrete cell occupied
by an entity with an unresolved tile id. -/
theorem unresolved_occupant_handling_witness :
    sOccNone.grid 0 0 p00 = some { entity := 7, id := none } ∧
    TilePlacer.toggle_matching cfgAuto sOccNone tidA p00 0 0 =
      (.error (.TileAlreadyExists tidA none p00), sOccNone, []) := by
  refine ⟨by decide, ?_⟩
  exact (unresolved_occupant_handling cfgAuto sOccNone tidA p00 0 0 7
    (by decide)).2.2

/-- C7: `toggle` on an empty cell places the tile (`Added` with no previous
occupant); on any occupied cell it removes the occupant irrespective of
group (`Removed` carrying it) and clears the cell; hence two consecutive
toggles with the same arguments starting from an empty cell leave the cell
empty again. -/
theorem toggle_own_inverse (cfg : Config) (s : PlacerState) (id : TileId)
    (pos : TilePos) (m l : Nat) (ix : TileIndex)
    (h1 : cfg.registry.tileset_of id.tileset_id = true)
    (h2 : cfg.registry.tile_index_of id = some ix)
    (hempty : s.grid m l pos = none) :
    (TilePlacer.toggle cfg s id pos m l).1 =
      .ok (.Added none (s.nextEntity, id)) ∧
    (∀ s2 ex2, s2.grid m l pos = some ex2 →
      (TilePlacer.toggle cfg s2 id pos m l).1 =
        .ok (.Removed (some (ex2.entity, ex2.id))) ∧
      (TilePlacer.toggle cfg s2 id pos m l).2.1.grid m l pos = none) ∧
    (TilePlacer.toggle cfg (TilePlacer.toggle cfg s id pos m l).2.1 id pos
        m l).2.1.grid m l pos = none := by
  have hocc2 : ∀ s2 ex2, s2.grid m l pos = some ex2 →
      (TilePlacer.toggle cfg s2 id pos m l).1 =
        .ok (.Removed (some (ex2.entity, ex2.id))) ∧
      (TilePlacer.toggle cfg s2 id pos m l).2.1.grid m l pos = none := by
    intro s2 ex2 hocc
    obtain ⟨hr1, hr2⟩ := remove_occupied_ok cfg s2 pos m l ex2 hocc
    rcases hr : TilePlacer.remove cfg s2 pos m l with ⟨r, s1, tr⟩
    rw [hr] at hr1 hr2
    simp only at hr1 hr2
    subst hr1
    have ht : TilePlacer.toggle cfg s2 id pos m l =
        (.ok (.Removed (some (ex2.entity, ex2.id))), s1, tr) := by
      simp [TilePlacer.toggle, hocc, hr]
    rw [ht]
    exact ⟨rfl, hr2⟩
  have hplace := place_unchecked_ok cfg s id pos m l ix h1 h2
  have ht1 : TilePlacer.toggle cfg s id pos m l =
      TilePlacer.place_unchecked cfg s id pos m l := by
    simp [TilePlacer.toggle, hempty]
  refine ⟨?_, hocc2, ?_⟩
  · rw [ht1]
    have h := hplace.1
    rw [hempty] at h
    simpa using h
  · have hgrid1 : (TilePlacer.toggle cfg s id pos m l).2.1.grid m l pos =
        some { entity := s.nextEntity, id := some id } := by
      rw [ht1]
      exact hplace.2
    exact (hocc2 _ _ hgrid1).2

/-- Witness for `toggle_own_inverse`: double toggle from the empty state
returns cell (0,0) to empty. -/
theorem toggle_own_inverse_witness :
    cfgAuto.registry.tileset_of tidA.tileset_id = true ∧
    cfgAuto.registry.tile_index_of tidA = some 0 ∧
    sEmpty.grid 0 0 p00 = none ∧
    (TilePlacer.toggle cfgAuto
        (TilePlacer.toggle cfgAuto sEmpty tidA p00 0 0).2.1
        tidA p00 0 0).2.1.grid 0 0 p00 = none := by
  refine ⟨rfl, rfl, rfl, ?_⟩
  exact (toggle_own_inverse cfgAuto sEmpty tidA p00 0 0 0 rfl rfl rfl).2.2

/-- C3: with the auto-tile capability enabled, removing an occupant whose
entity carries the full auto-tile neighborhood record (position, parent
reference, auto-tile id) emits exactly one cascade notification carrying
that entity and its recorded position; removing an occupant without the
`AutoTileId` component emits none; and when the neighborhood record is
incomplete (position or parent component missing) no notification is
emitted while the removal still succeeds rather than erroring. -/
theorem remove_cascade_correctness (cfg : Config) (s : PlacerState)
    (pos : TilePos) (m l : Nat) (ex : Existing)
    (hauto : cfg.autoTile = true) (hocc : s.grid m l pos = some ex) :
    (TilePlacer.remove cfg s pos m l).1 = .ok () ∧
    (∀ p par a, s.posC ex.entity = some p → s.parentC ex.entity = some par →
      s.autoC ex.entity = some a →
      (TilePlacer.remove cfg s pos m l).2.1.events =
        s.events ++
          [{ entity := ex.entity, pos := p, parent := par, auto_id := a }]) ∧
    (s.autoC ex.entity = none →
      (TilePlacer.remove cfg s pos m l).2.1.events = s.events) ∧
    (s.posC ex.entity = none ∨ s.parentC ex.entity = none →
      (TilePlacer.remove cfg s pos m l).2.1.events = s.events) := by
  have hrem : TilePlacer.remove cfg s pos m l =
      (.ok (), clearCell (TilePlacer.try_remove_auto_tile s ex.entity).1 m l pos,
        (TilePlacer.try_remove_auto_tile s ex.entity).2.1 ++
          [Effect.clearCell m l pos]) := by
    rw [remove_occupied cfg s pos m l ex hocc, hauto]
    simp
  rw [hrem]
  refine ⟨rfl, ?_, ?_, ?_⟩
  · intro p par a hp hq ha
    rw [clearCell_events, try_remove_found s ex.entity p par a hp hq ha]
  · intro ha
    rw [clearCell_events, try_remove_missing s ex.entity (Or.inr (Or.inr ha))]
  · intro h
    rcases h with h | h
    · rw [clearCell_events, try_remove_missing s ex.entity (Or.inl h)]
    · rw [clearCell_events, try_remove_missing s ex.entity (Or.inr (Or.inl h))]

/-- Witness for `remove_cascade_correctness`: removing the concrete auto-tile
occupant appends exactly the one expected notification. -/
theorem remove_cascade_correctness_witness :
    cfgAuto.autoTile = true ∧ sOccAuto.grid 0 0 p00 = some exA ∧
    (TilePlacer.remove cfgAuto sOccAuto p00 0 0).2.1.events =
      sOccAuto.events ++ [ev0] := by
  refine ⟨rfl, by decide, ?_⟩
  exact (remove_cascade_correctness cfgAuto sOccAuto p00 0 0 exA rfl
    (by decide)).2.1 p00 3 { group_id := 0, tileset_id := 0 }
    (by decide) (by decide) (by decide)

/-- C2 counterexample: with the auto-tile capability enabled, `remove` on an
empty cell returns `MapError` (the occupant lookup preceding the auto-tile
handling fails), not `Ok`. -/
theorem remove_empty_counterexample :
    sEmpty.grid 0 0 p00 = none ∧
    (TilePlacer.remove cfgAuto sEmpty p00 0 0).1 = .error .MapError := by
  exact ⟨rfl, rfl⟩

/-- C2 amended: `remove` on a cell with no occupant leaves all state
unchanged for any (map, layer, position), but it returns success only when
the auto-tile capability is disabled; with the capability enabled it returns
`MapError` because the occupant lookup fails before the removal no-op. -/
theorem remove_empty_cell (cfg : Config) (s : PlacerState) (pos : TilePos)
    (m l : Nat) (hempty : s.grid m l pos = none) :
    (cfg.autoTile = false →
      TilePlacer.remove cfg s pos m l =
        (.ok (), s, [Effect.clearCell m l pos])) ∧
    (cfg.autoTile = true →
      TilePlacer.remove cfg s pos m l = (.error .MapError, s, [])) := by
  constructor
  · intro hat
    simp only [TilePlacer.remove, hat]
    rw [clearCell_empty s m l pos hempty]
    simp
  · intro hat
    simp only [TilePlacer.remove, hat,
      get_tile_entity_empty s m l pos hempty]
    simp

/-- Witness for `remove_empty_cell`: the concrete empty cell, capability
disabled, yields success with the state returned unchanged. -/
theorem remove_empty_cell_witness :
    sEmpty.grid 0 0 p00 = none ∧
    TilePlacer.remove cfgPlain sEmpty p00 0 0 =
      (.ok (), sEmpty, [Effect.clearCell 0 0 p00]) := by
  refine ⟨rfl, ?_⟩
  exact (remove_empty_cell cfgPlain sEmpty p00 0 0 rfl).1 rfl

theorem try_remove_trace (s : PlacerState) (e : Entity) :
    (TilePlacer.try_remove_auto_tile s e).2.1 = [] ∨
    ∃ ev, (TilePlacer.try_remove_auto_tile s e).2.1 =
      [Effect.emitCascade ev] := by
  unfold TilePlacer.try_remove_auto_tile
  rcases s.posC e with _ | p <;> rcases s.parentC e with _ | q <;>
    rcases s.autoC e with _ | a
  all_goals first
    | (left; rfl)
    | (right; exact ⟨_, rfl⟩)

/-- C1 counterexample: with auto-tile enabled, removing the concrete
auto-tile occupant produces the effect trace [emit, clear]: the cascade
notification is emitted strictly before the cell is cleared in the grid
index, refuting the claim that the notification is emitted only after the
cell is cleared. -/
theorem remove_cascade_order_counterexample :
    (TilePlacer.remove cfgAuto sOccAuto p00 0 0).2.2 =
      [Effect.emitCascade ev0, Effect.clearCell 0 0 p00] ∧
    emitsOnlyAfterClear (TilePlacer.remove cfgAuto sOccAuto p00 0 0).2.2 =
      false := by
  exact ⟨rfl, rfl⟩

/-- C1 amended: for every removal of an occupant with the auto-tile
capability enabled (via `remove` or the removal branches of `toggle` and
`toggle_matching`, whose traces equal the `remove` trace), the cascade
notification is emitted strictly BEFORE the cell is cleared in the grid
index, and the clearing is the final effect of the call; the call returns
with the cell cleared, so a consumer that observes the queued notification
after the call completes still finds the cell empty. -/
theorem remove_cascade_order (cfg : Config) (s : PlacerState) (id : TileId)
    (pos : TilePos) (m l : Nat) (ex : Existing)
    (hauto : cfg.autoTile = true) (hocc : s.grid m l pos = some ex) :
    (TilePlacer.remove cfg s pos m l).1 = .ok () ∧
    (TilePlacer.remove cfg s pos m l).2.1.grid m l pos = none ∧
    noEmitAfterClear (TilePlacer.remove cfg s pos m l).2.2 = true ∧
    (TilePlacer.remove cfg s pos m l).2.2.getLast? =
      some (Effect.clearCell m l pos) ∧
    (TilePlacer.toggle cfg s id pos m l).2.2 =
      (TilePlacer.remove cfg s pos m l).2.2 ∧
    (∀ eid, ex.id = some eid → eid.eq_tile_group id = true →
      (TilePlacer.toggle_matching cfg s id pos m l).2.2 =
        (TilePlacer.remove cfg s pos m l).2.2) := by
  obtain ⟨hr1, hgrid⟩ := remove_occupied_ok cfg s pos m l ex hocc
  have hrem : TilePlacer.remove cfg s pos m l =
      (.ok (), clearCell (TilePlacer.try_remove_auto_tile s ex.entity).1 m l pos,
        (TilePlacer.try_remove_auto_tile s ex.entity).2.1 ++
          [Effect.clearCell m l pos]) := by
    rw [remove_occupied cfg s pos m l ex hocc, hauto]
    simp
  have htog : (TilePlacer.toggle cfg s id pos m l).2.2 =
      (TilePlacer.remove cfg s pos m l).2.2 := by
    rcases hr : TilePlacer.remove cfg s pos m l with ⟨r, s1, tr⟩
    rw [hr] at hr1
    simp only at hr1
    subst hr1
    simp [TilePlacer.toggle, hocc, hr]
  have htm : ∀ eid, ex.id = some eid → eid.eq_tile_group id = true →
      (TilePlacer.toggle_matching cfg s id pos m l).2.2 =
        (TilePlacer.remove cfg s pos m l).2.2 := by
    intro eid heq hgr
    rcases hr : TilePlacer.remove cfg s pos m l with ⟨r, s1, tr⟩
    rw [hr] at hr1
    simp only at hr1
    subst hr1
    simp [TilePlacer.toggle_matching, hocc, heq, hgr, hr]
  refine ⟨hr1, hgrid, ?_, ?_, htog, htm⟩
  · rw [hrem]
    rcases try_remove_trace s ex.entity with h | ⟨ev, h⟩ <;>
      simp [h, noEmitAfterClear, noEmitAfterClearAux,
        Effect.isEmit, Effect.isClear]
  · rw [hrem]
    simp

/-- Witness for `remove_cascade_order` at the concrete auto-tile removal. -/
theorem remove_cascade_order_witness :
    cfgAuto.autoTile = true ∧ sOccAuto.grid 0 0 p00 = some exA ∧
    noEmitAfterClear (TilePlacer.remove cfgAuto sOccAuto p00 0 0).2.2 =
      true := by
  refine ⟨rfl, by decide, ?_⟩
  exact (remove_cascade_order cfgAuto sOccAuto tidA p00 0 0 exA rfl
    (by decide)).2.2.1

/-- C8 counterexample: `toggle` called with a tile id the registry cannot
resolve, on an occupied cell, succeeds with `Removed` and mutates the grid
index (it never reaches tile resolution), refuting the claim that every
operation referencing an unresolvable id fails with a resolution error
before any mutation. -/
theorem resolution_failure_counterexample :
    regNone.get_tileset_id tidA = .error (.InvalidTileset 0) ∧
    (TilePlacer.toggle cfgNone sOccAuto tidA p00 0 0).1 =
      .ok (.Removed (some (7, some tidA))) ∧
    (TilePlacer.toggle cfgNone sOccAuto tidA p00 0 0).2.1.grid 0 0 p00 =
      none := by
  exact ⟨rfl, rfl, rfl⟩

/-- C8 amended: whenever an operation reaches tile resolution with an
unresolvable id it fails before any mutation: `place` (and hence every path
through `place_unchecked`) returns `InvalidTileset` for an unknown tileset
and `InvalidTile` for a known tileset with an unknown tile, with the state
unchanged and no effects; and whenever any of the five placement operations
returns a resolution error, the state is returned unchanged with no
effects.  Branches that never consult the registry (the rejection and
removal branches) are not governed by resolvability and may succeed or fail
with other errors. -/
theorem resolution_failure_no_mutation (cfg : Config) (s : PlacerState)
    (id : TileId) (pos : TilePos) (m l : Nat) :
    (cfg.registry.tileset_of id.tileset_id = false →
      TilePlacer.place cfg s id pos m l =
        (.error (.InvalidTileset id.tileset_id), s, [])) ∧
    (cfg.registry.tileset_of id.tileset_id = true →
      cfg.registry.tile_index_of id = none →
      TilePlacer.place cfg s id pos m l = (.error (.InvalidTile id), s, [])) ∧
    (∀ e, resolutionError e = true →
      ((TilePlacer.place cfg s id pos m l).1 = .error e →
        TilePlacer.place cfg s id pos m l = (.error e, s, [])) ∧
      ((TilePlacer.try_place cfg s id pos m l).1 = .error e →
        TilePlacer.try_place cfg s id pos m l = (.error e, s, [])) ∧
      ((TilePlacer.replace cfg s id pos m l).1 = .error e →
        TilePlacer.replace cfg s id pos m l = (.error e, s, [])) ∧
      ((TilePlacer.toggle cfg s id pos m l).1 = .error e →
        TilePlacer.toggle cfg s id pos m l = (.error e, s, [])) ∧
      ((TilePlacer.toggle_matching cfg s id pos m l).1 = .error e →
        TilePlacer.toggle_matching cfg s id pos m l = (.error e, s, []))) := by
  have hpu : ∀ e, (TilePlacer.place_unchecked cfg s id pos m l).1 = .error e →
      TilePlacer.place_unchecked cfg s id pos m l = (.error e, s, []) := by
    intro e h
    exact (place_unchecked_err cfg s id pos m l e h).1
  refine ⟨?_, ?_, ?_⟩
  · intro h
    simp only [TilePlacer.place, TilePlacer.place_unchecked,
      get_tileset_id_err _ _ h]
  · intro h1 h2
    simp only [TilePlacer.place, TilePlacer.place_unchecked,
      get_tileset_id_ok _ _ h1, get_tile_index_err_tile _ _ h1 h2]
  · intro e hres
    refine ⟨hpu e, ?_, ?_, ?_, ?_⟩
    · rcases hocc : s.grid m l pos with _ | ex
      · intro h
        have ht : TilePlacer.try_place cfg s id pos m l =
            TilePlacer.place_unchecked cfg s id pos m l := by
          simp [TilePlacer.try_place, hocc]
        rw [ht] at h ⊢
        exact hpu e h
      · intro h
        have ht : TilePlacer.try_place cfg s id pos m l =
            (.error (.TileAlreadyExists id ex.id pos), s, []) := by
          simp [TilePlacer.try_place, hocc]
        rw [ht] at h
        simp at h
        subst h
        simp [resolutionError] at hres
    · rcases hocc : s.grid m l pos with _ | ex
      · intro h
        have ht : TilePlacer.replace cfg s id pos m l =
            TilePlacer.place_unchecked cfg s id pos m l := by
          simp [TilePlacer.replace, hocc]
        rw [ht] at h ⊢
        exact hpu e h
      · rcases hid : ex.id with _ | eid
        · intro h
          have ht : TilePlacer.replace cfg s id pos m l =
              TilePlacer.place_unchecked cfg s id pos m l := by
            simp [TilePlacer.replace, hocc, hid]
          rw [ht] at h ⊢
          exact hpu e h
        · by_cases hgr : eid.eq_tile_group id = true
          · intro h
            have ht : TilePlacer.replace cfg s id pos m l =
                (.error (.TileAlreadyExists id (some eid) pos), s, []) := by
              simp [TilePlacer.replace, hocc, hid, hgr]
            rw [ht] at h
            simp at h
            subst h
            simp [resolutionError] at hres
          · have hgr' : eid.eq_tile_group id = false := by simpa using hgr
            intro h
            have ht : TilePlacer.replace cfg s id pos m l =
                TilePlacer.place_unchecked cfg s id pos m l := by
              simp [TilePlacer.replace, hocc, hid, hgr']
            rw [ht] at h ⊢
            exact hpu e h
    · rcases hocc : s.grid m l pos with _ | ex
      · intro h
        have ht : TilePlacer.toggle cfg s id pos m l =
            TilePlacer.place_unchecked cfg s id pos m l := by
          simp [TilePlacer.toggle, hocc]
        rw [ht] at h ⊢
        exact hpu e h
      · intro h
        obtain ⟨hr1, _⟩ := remove_occupied_ok cfg s pos m l ex hocc
        rcases hr : TilePlacer.remove cfg s pos m l with ⟨r, s1, tr⟩
        rw [hr] at hr1
        simp only at hr1
        subst hr1
        have ht : TilePlacer.toggle cfg s id pos m l =
            (.ok (.Removed (some (ex.entity, ex.id))), s1, tr) := by
          simp [TilePlacer.toggle, hocc, hr]
        rw [ht] at h
        simp at h
    · rcases hocc : s.grid m l pos with _ | ex
      · intro h
        have ht : TilePlacer.toggle_matching cfg s id pos m l =
            TilePlacer.place_unchecked cfg s id pos m l := by
          simp [TilePlacer.toggle_matching, hocc]
        rw [ht] at h ⊢
        exact hpu e h
      · rcases hid : ex.id with _ | eid
        · intro h
          have ht : TilePlacer.toggle_matching cfg s id pos m l =
              (.error (.TileAlreadyExists id none pos), s, []) := by
            simp [TilePlacer.toggle_matching, hocc, hid]
          rw [ht] at h
          simp at h
          subst h
          simp [resolutionError] at hres
        · by_cases hgr : eid.eq_tile_group id = true
          · intro h
            obtain ⟨hr1, _⟩ := remove_occupied_ok cfg s pos m l ex hocc
            rcases hr : TilePlacer.remove cfg s pos m l with ⟨r, s1, tr⟩
            rw [hr] at hr1
            simp only at hr1
            subst hr1
            have ht : TilePlacer.toggle_matching cfg s id pos m l =
                (.ok (.Removed (some (ex.entity, some eid))), s1, tr) := by
              simp [TilePlacer.toggle_matching, hocc, hid, hgr, hr]
            rw [ht] at h
            simp at h
          · have hgr' : eid.eq_tile_group id = false := by simpa using hgr
            intro h
            have ht : TilePlacer.toggle_matching cfg s id pos m l =
                (.error (.TileAlreadyExists id (some eid) pos), s, []) := by
              simp [TilePlacer.toggle_matching, hocc, hid, hgr']
            rw [ht] at h
            simp at h
            subst h
            simp [resolutionError] at hres

/-- Witness for `resolution_failure_no_mutation`: `place` of a tile whose
tileset is unknown fails with `InvalidTileset` and returns the state
unchanged. -/
theorem resolution_failure_no_mutation_witness :
    regNone.tileset_of 0 = false ∧
    TilePlacer.place cfgNone sEmpty tidA p00 0 0 =
      (.error (.InvalidTileset 0), sEmpty, []) := by
  refine ⟨rfl, ?_⟩
  exact (resolution_failure_no_mutation cfgNone sEmpty tidA p00 0 0).1 rfl
